import Mathlib

/-!
Verification of the Mouse/Candida peptide-overlap analysis.

The analysis lives in two Jupyter notebooks
(`Candida_Mouse_Peptide_Intersections` and `MS_Output_Screening`) working over
pandas dataframes of (protein_id, peptide, organism) records.  We embed the
dataframe operations as functions over `List PepRecord`:

* `pd.concat` is list append;
* `drop_duplicates('peptide', keep=False)` keeps a row iff its peptide string
  occurs exactly once in the whole frame;
* `df[df.duplicated('peptide', keep=False)]` keeps a row iff its peptide
  string occurs at least twice;
* `['protein_id'].unique().tolist()` is `map` then `dedup`;
* a Python `raise` escaping a loop is modelled by `Except`: the computation of
  the whole loop returns `.error`, so rows after the failing one are lost.

`PepOverlap.py` is imported by both notebooks but is not among the sources;
the functions the notebooks take from it (`summarise_proteome`,
`clean_peptide`) are modelled from the spec and marked as such.
-/

namespace PepOverlap

/-- One digest record, one row of the notebooks' dataframes: a protein
identifier, a tryptic peptide sequence and the organism the record came
from. -/
structure PepRecord where
  protein_id : String
  peptide : String
  organism : String
deriving DecidableEq, Repr

/-- Number of rows of `l` whose peptide string is `p` (the size of the
pandas group for key `p`). -/
def countPep (l : List PepRecord) (p : String) : Nat :=
  (l.filter (fun r => r.peptide = p)).length

/-- Number of rows of `l` whose protein identifier is `pid`. -/
def countProt (l : List PepRecord) (pid : String) : Nat :=
  (l.filter (fun r => r.protein_id = pid)).length

/-- The peptide column of a frame. -/
def peptidesOf (l : List PepRecord) : List String :=
  l.map (fun r => r.peptide)

/-- Modelled from the spec: the unique subset computed by
`summarise_proteome` in `PepOverlap.py`, a module that is not among the
sources.  The spec derives it from the organism's total collection by keeping
exactly the records whose peptide string has multiplicity one across the
whole collection. -/
def unique_df (total : List PepRecord) : List PepRecord :=
  total.filter (fun r => countPep total r.peptide = 1)

/-- `merged_df = pd.concat(pep_data.unique_dfs)`: the two organisms' unique
collections concatenated. -/
def merged_df (uniqueMouse uniqueCandida : List PepRecord) : List PepRecord :=
  uniqueMouse ++ uniqueCandida

/-- `unique_merged_df = merged_df.drop_duplicates('peptide', keep=False)`:
rows whose peptide occurs exactly once in the combined frame. -/
def unique_merged_df (merged : List PepRecord) : List PepRecord :=
  merged.filter (fun r => countPep merged r.peptide = 1)

/-- `duplicate_df = merged_df[merged_df.duplicated('peptide', keep=False)]`:
rows whose peptide occurs at least twice in the combined frame. -/
def duplicate_df (merged : List PepRecord) : List PepRecord :=
  merged.filter (fun r => 2 ≤ countPep merged r.peptide)

/-- `common_prots = duplicate_df['protein_id'].unique().tolist()`: the
distinct protein identifiers among the overlap rows. -/
def common_prots (merged : List PepRecord) : List String :=
  ((duplicate_df merged).map (fun r => r.protein_id)).dedup

/-- The species attribution of the shared-burden loop:
`if prot_id in mouse_prot_ids: ... elif prot_id in candida_prot_ids: ...
else: raise Exception('Protein ID not found')`. -/
def speciesOf (mouseIds candidaIds : List String) (pid : String) :
    Except String String :=
  if pid ∈ mouseIds then .ok "Mouse"
  else if pid ∈ candidaIds then .ok "Candida"
  else .error "Protein ID not found"

/-- `multi_pep_common_prots = duplicate_df[duplicate_df.duplicated('protein_id',
keep=False)]`: overlap rows whose protein identifier occurs at least twice
among the overlap rows. -/
def multi_pep_common_prots (merged : List PepRecord) : List PepRecord :=
  (duplicate_df merged).filter
    (fun r => 2 ≤ countProt (duplicate_df merged) r.protein_id)

/-- `multi_pep_common_prot_ids = set(multi_pep_common_prots['protein_id'])`. -/
def multi_pep_common_prot_ids (merged : List PepRecord) : List String :=
  ((multi_pep_common_prots merged).map (fun r => r.protein_id)).dedup

/-- One row of `shared_count_df`.  `shared_proportion` keeps the exact
rational value of `len(common_peps)/len(total_peps)*100`; the notebook
formats it with two decimals for display. -/
structure ProteinBurden where
  protein_id : String
  species : String
  shared_peptides : Nat
  total_peptides : Nat
  shared_proportion : ℚ
deriving DecidableEq, Repr

/-- One iteration of the `for prot_id in multi_pep_common_prot_ids` loop:
`common_peps` are the rows of `multi_pep_common_prots` for this protein,
`total_peps` the rows of `merged_df` for it (note: `merged_df`, the combined
unique collections, not the organism's total frame). -/
def burdenOf (merged : List PepRecord) (mouseIds candidaIds : List String)
    (pid : String) : Except String ProteinBurden :=
  match speciesOf mouseIds candidaIds pid with
  | .error e => .error e
  | .ok sp =>
    .ok { protein_id := pid
          species := sp
          shared_peptides := countProt (multi_pep_common_prots merged) pid
          total_peptides := countProt merged pid
          shared_proportion :=
            (countProt (multi_pep_common_prots merged) pid : ℚ) /
              (countProt merged pid : ℚ) * 100 }

/-- The loop body applied to a list of protein identifiers; a raised
exception aborts the whole loop. -/
def sharedCountsAux (merged : List PepRecord) (mouseIds candidaIds : List String) :
    List String → Except String (List ProteinBurden)
  | [] => .ok []
  | pid :: rest =>
    match burdenOf merged mouseIds candidaIds pid with
    | .error e => .error e
    | .ok b =>
      match sharedCountsAux merged mouseIds candidaIds rest with
      | .error e => .error e
      | .ok bs => .ok (b :: bs)

/-- `shared_counts`: the full shared-burden table built by iterating over
`multi_pep_common_prot_ids`. -/
def shared_counts (merged : List PepRecord) (mouseIds candidaIds : List String) :
    Except String (List ProteinBurden) :=
  sharedCountsAux merged mouseIds candidaIds (multi_pep_common_prot_ids merged)

/-- Modelled from the spec: the bracket-stripping scan of `clean_peptide`
(`PepOverlap.py`, not among the sources).  Removes every bracketed
modification annotation, brackets included; the boolean tracks whether the
scan is currently inside a bracket. -/
def stripBracketed : List Char → Bool → List Char
  | [], _ => []
  | c :: cs, true =>
    if c = ']' then stripBracketed cs false else stripBracketed cs true
  | c :: cs, false =>
    if c = '[' then stripBracketed cs true else c :: stripBracketed cs false

/-- Modelled from the spec: `clean_peptide` from `PepOverlap.py`, a module
that is not among the sources.  A raw precursor identifier such as
`_C[Carbamidomethyl (C)]QGTFSPEDNSIK_.2` is the peptide between a leading and
a trailing underscore delimiter, with bracketed modification annotations
inline and an optional trailing charge-state suffix after the closing
delimiter.  The body between the first and the last underscore has its
bracketed annotations removed; input without the delimiter structure fails
with a normalization error. -/
def clean_peptide (s : String) : Except String String :=
  if s.data.head? = some '_' ∧ '_' ∈ s.data.tail then
    .ok ⟨stripBracketed ((s.data.tail.reverse.dropWhile (fun x => x ≠ '_')).tail).reverse false⟩
  else .error "NormalizationError"

/-- The raw annotated convention with zero modifications and charge state 2:
the bare sequence between underscore delimiters, followed by the charge
suffix, as in the notebook's example identifiers. -/
def rawWrap (s : String) : String :=
  "_" ++ s ++ "_.2"

/-- One row of a Spectronaut result file: the raw precursor identifier and
the rest of the row, abstracted as an opaque payload (the screening loop
passes it through untouched). -/
structure ResultRow where
  precursorId : String
  payload : String
deriving DecidableEq, Repr

/-- A retained conflict row: the original row annotated with its normalized
peptide (`peprow['clean_peptide']=peptide`). -/
structure ConflictRow where
  row : ResultRow
  clean_peptide : String
deriving DecidableEq, Repr

/-- The conflicts loop of the screening notebook: for each row, normalize the
precursor identifier and retain the row iff the normalized peptide is in the
shared-peptide list.  An exception raised by the normalization aborts the
whole loop (there is no per-row handler in the notebook). -/
def screenConflicts (shared : List String) : List ResultRow → Except String (List ConflictRow)
  | [] => .ok []
  | r :: rs =>
    match clean_peptide r.precursorId with
    | .error e => .error e
    | .ok p =>
      match screenConflicts shared rs with
      | .error e => .error e
      | .ok rest =>
        if p ∈ shared then .ok ({ row := r, clean_peptide := p } :: rest) else .ok rest

/-- One row of the per-experiment summary table.  The gene/description
metadata columns, looked up by the same first-match pattern from the parsed
FASTA headers, are elided. -/
structure SummaryRow where
  peptide : String
  mouse_prot : String
  mouse_total_peptides : Nat
  candida_prot : String
  candida_total_peptides : Nat
deriving DecidableEq, Repr

/-- `group[group['organism']==org]['protein_id'].values[0]`: the first record
of the group for the given organism; `.values[0]` on an empty selection
raises an IndexError. -/
def firstOrganismProt (group : List PepRecord) (org : String) : Except String String :=
  match group.filter (fun r => r.organism = org) with
  | [] => .error "IndexError"
  | r :: _ => .ok r.protein_id

/-- The body of the summary group loop: look up the first mouse and the first
candida protein of the group and count that protein's records in the
organism's total frame. -/
def summaryRow (mouseTotal candidaTotal : List PepRecord) (pep : String)
    (group : List PepRecord) : Except String SummaryRow :=
  match firstOrganismProt group "mouse" with
  | .error e => .error e
  | .ok mp =>
    match firstOrganismProt group "candida" with
    | .error e => .error e
    | .ok cp =>
      .ok { peptide := pep
            mouse_prot := mp
            mouse_total_peptides := countProt mouseTotal mp
            candida_prot := cp
            candida_total_peptides := countProt candidaTotal cp }

/-- The `for name, group in grouped` summary loop; an exception raised inside
one iteration aborts the whole loop, as in the notebook where no handler
surrounds it. -/
def buildSummary (mouseTotal candidaTotal : List PepRecord) :
    List (String × List PepRecord) → Except String (List SummaryRow)
  | [] => .ok []
  | (p, g) :: rest =>
    match summaryRow mouseTotal candidaTotal p g with
    | .error e => .error e
    | .ok row =>
      match buildSummary mouseTotal candidaTotal rest with
      | .error e => .error e
      | .ok rows => .ok (row :: rows)

theorem mem_peptidesOf (l : List PepRecord) (p : String) :
    p ∈ peptidesOf l ↔ ∃ r ∈ l, r.peptide = p := by
  simp [peptidesOf]

theorem countPep_pos_iff (l : List PepRecord) (p : String) :
    0 < countPep l p ↔ ∃ r ∈ l, r.peptide = p := by
  rw [countPep, List.length_pos]
  constructor
  · intro h
    rcases List.exists_mem_of_ne_nil _ h with ⟨r, hr⟩
    have h2 := List.mem_filter.mp hr
    exact ⟨r, h2.1, by simpa using h2.2⟩
  · rintro ⟨r, hr, hp⟩ hnil
    have hmem : r ∈ l.filter (fun r => r.peptide = p) :=
      List.mem_filter.mpr ⟨hr, by simpa using hp⟩
    rw [hnil] at hmem
    simp at hmem

theorem countProt_pos_iff (l : List PepRecord) (pid : String) :
    0 < countProt l pid ↔ ∃ r ∈ l, r.protein_id = pid := by
  rw [countProt, List.length_pos]
  constructor
  · intro h
    rcases List.exists_mem_of_ne_nil _ h with ⟨r, hr⟩
    have h2 := List.mem_filter.mp hr
    exact ⟨r, h2.1, by simpa using h2.2⟩
  · rintro ⟨r, hr, hp⟩ hnil
    have hmem : r ∈ l.filter (fun r => r.protein_id = pid) :=
      List.mem_filter.mpr ⟨hr, by simpa using hp⟩
    rw [hnil] at hmem
    simp at hmem

theorem mem_peptides_count_one (l : List PepRecord) (p : String) :
    p ∈ peptidesOf (l.filter (fun r => countPep l r.peptide = 1)) ↔ countPep l p = 1 := by
  constructor
  · intro h
    rcases (mem_peptidesOf _ _).mp h with ⟨r, hr, hpep⟩
    have h2 := List.mem_filter.mp hr
    have h3 : countPep l r.peptide = 1 := by simpa using h2.2
    rwa [hpep] at h3
  · intro hq
    have hpos : 0 < countPep l p := by omega
    rcases (countPep_pos_iff l p).mp hpos with ⟨r, hr, hpep⟩
    refine (mem_peptidesOf _ _).mpr ⟨r, List.mem_filter.mpr ⟨hr, ?_⟩, hpep⟩
    simp only [hpep, decide_eq_true_eq]
    exact hq

theorem mem_peptides_count_ge_two (l : List PepRecord) (p : String) :
    p ∈ peptidesOf (l.filter (fun r => 2 ≤ countPep l r.peptide)) ↔ 2 ≤ countPep l p := by
  constructor
  · intro h
    rcases (mem_peptidesOf _ _).mp h with ⟨r, hr, hpep⟩
    have h2 := List.mem_filter.mp hr
    have h3 : 2 ≤ countPep l r.peptide := by simpa using h2.2
    rwa [hpep] at h3
  · intro hq
    have hpos : 0 < countPep l p := by omega
    rcases (countPep_pos_iff l p).mp hpos with ⟨r, hr, hpep⟩
    refine (mem_peptidesOf _ _).mpr ⟨r, List.mem_filter.mpr ⟨hr, ?_⟩, hpep⟩
    simp only [hpep, decide_eq_true_eq]
    exact hq

/-- C1: over the concatenation of the two organisms' unique record
collections, a peptide string is cross-organism-unique (a peptide of
`unique_merged_df`) iff its multiplicity in the combined frame is exactly 1,
it is an overlap peptide (a peptide of `duplicate_df`) iff its multiplicity
is at least 2, and the impacted-protein list `common_prots` holds exactly the
distinct protein identifiers of the overlap rows. -/
theorem intersector_partition (u1 u2 : List PepRecord) :
    (∀ p, p ∈ peptidesOf (unique_merged_df (merged_df u1 u2)) ↔
      countPep (merged_df u1 u2) p = 1) ∧
    (∀ p, p ∈ peptidesOf (duplicate_df (merged_df u1 u2)) ↔
      2 ≤ countPep (merged_df u1 u2) p) ∧
    (∀ pid, pid ∈ common_prots (merged_df u1 u2) ↔
      ∃ r ∈ duplicate_df (merged_df u1 u2), r.protein_id = pid) := by
  refine ⟨fun p => ?_, fun p => ?_, fun pid => ?_⟩
  · exact mem_peptides_count_one (merged_df u1 u2) p
  · exact mem_peptides_count_ge_two (merged_df u1 u2) p
  · rw [common_prots, List.mem_dedup, List.mem_map]

/-- C2: for every proteome total collection, the derived unique subset is a
subset of the total collection, and a peptide string appears among its
peptides iff its multiplicity across the whole total collection is exactly
one. -/
theorem summarizer_unique_spec (total : List PepRecord) :
    (∀ r ∈ unique_df total, r ∈ total) ∧
    (∀ p, p ∈ peptidesOf (unique_df total) ↔ countPep total p = 1) := by
  constructor
  · intro r hr
    exact List.mem_of_mem_filter hr
  · intro p
    exact mem_peptides_count_one total p

theorem intersector_partition_witness :
    "CCK" ∈ peptidesOf (duplicate_df
        (merged_df [⟨"P1", "CCK", "mouse"⟩] [⟨"Q1", "CCK", "candida"⟩])) ↔
      2 ≤ countPep (merged_df [⟨"P1", "CCK", "mouse"⟩] [⟨"Q1", "CCK", "candida"⟩]) "CCK" :=
  (intersector_partition [⟨"P1", "CCK", "mouse"⟩] [⟨"Q1", "CCK", "candida"⟩]).2.1 "CCK"

theorem summarizer_unique_spec_witness :
    "BBK" ∈ peptidesOf (unique_df
        [⟨"P1", "AAK", "a"⟩, ⟨"P1", "BBK", "a"⟩, ⟨"P2", "AAK", "a"⟩]) ↔
      countPep [⟨"P1", "AAK", "a"⟩, ⟨"P1", "BBK", "a"⟩, ⟨"P2", "AAK", "a"⟩] "BBK" = 1 :=
  (summarizer_unique_spec [⟨"P1", "AAK", "a"⟩, ⟨"P1", "BBK", "a"⟩, ⟨"P2", "AAK", "a"⟩]).2 "BBK"

theorem sharedCountsAux_nil (merged : List PepRecord) (mIds cIds : List String) :
    sharedCountsAux merged mIds cIds [] = .ok [] := rfl

theorem sharedCountsAux_cons (merged : List PepRecord) (mIds cIds : List String)
    (a : String) (rest : List String) :
    sharedCountsAux merged mIds cIds (a :: rest) =
      match burdenOf merged mIds cIds a with
      | .error e => .error e
      | .ok b =>
        match sharedCountsAux merged mIds cIds rest with
        | .error e => .error e
        | .ok bs => .ok (b :: bs) := rfl

theorem speciesOf_eq_error (mIds cIds : List String) (pid e : String) :
    speciesOf mIds cIds pid = .error e ↔
      e = "Protein ID not found" ∧ pid ∉ mIds ∧ pid ∉ cIds := by
  unfold speciesOf
  split_ifs with h1 h2
  · simp [h1]
  · simp [h1, h2]
  · simp [h1, h2, eq_comm]

theorem burdenOf_eq_error (merged : List PepRecord) (mIds cIds : List String)
    (pid e : String) (h : burdenOf merged mIds cIds pid = .error e) :
    e = "Protein ID not found" := by
  unfold burdenOf at h
  cases hsp : speciesOf mIds cIds pid with
  | error e2 =>
    rw [hsp] at h
    have he : e2 = e := by simpa using h
    subst he
    exact ((speciesOf_eq_error mIds cIds pid e2).mp hsp).1
  | ok sp =>
    rw [hsp] at h
    simp at h

theorem burdenOf_eq_ok (merged : List PepRecord) (mIds cIds : List String)
    (pid : String) (b : ProteinBurden) (h : burdenOf merged mIds cIds pid = .ok b) :
    b.protein_id = pid ∧
    b.shared_peptides = countProt (multi_pep_common_prots merged) pid ∧
    b.total_peptides = countProt merged pid ∧
    b.shared_proportion =
      (countProt (multi_pep_common_prots merged) pid : ℚ) /
        (countProt merged pid : ℚ) * 100 := by
  unfold burdenOf at h
  cases hsp : speciesOf mIds cIds pid with
  | error e => rw [hsp] at h; simp at h
  | ok sp =>
    rw [hsp] at h
    rw [Except.ok.injEq] at h
    subst h
    exact ⟨rfl, rfl, rfl, rfl⟩

theorem sharedCountsAux_error (merged : List PepRecord) (mIds cIds : List String) :
    ∀ ids : List String, (∃ q ∈ ids, q ∉ mIds ∧ q ∉ cIds) →
      sharedCountsAux merged mIds cIds ids = .error "Protein ID not found" := by
  intro ids
  induction ids with
  | nil =>
    rintro ⟨q, hq, _⟩
    simp at hq
  | cons a rest ih =>
    rintro ⟨q, hq, hm, hc⟩
    cases hb : burdenOf merged mIds cIds a with
    | error e =>
      have he := burdenOf_eq_error merged mIds cIds a e hb
      subst he
      rw [sharedCountsAux_cons, hb]
    | ok b =>
      have hq2 : q ∈ rest := by
        rcases List.mem_cons.mp hq with rfl | h
        · exfalso
          have hsp : speciesOf mIds cIds q = .error "Protein ID not found" := by
            unfold speciesOf
            rw [if_neg hm, if_neg hc]
          unfold burdenOf at hb
          rw [hsp] at hb
          simp at hb
        · exact h
      rw [sharedCountsAux_cons, hb, ih ⟨q, hq2, hm, hc⟩]

theorem sharedCountsAux_mem (merged : List PepRecord) (mIds cIds : List String) :
    ∀ (ids : List String) (l : List ProteinBurden),
      sharedCountsAux merged mIds cIds ids = .ok l →
      ∀ b ∈ l, ∃ pid ∈ ids, burdenOf merged mIds cIds pid = .ok b := by
  intro ids
  induction ids with
  | nil =>
    intro l h b hb
    rw [sharedCountsAux_nil, Except.ok.injEq] at h
    subst h
    simp at hb
  | cons a rest ih =>
    intro l h b hb
    rw [sharedCountsAux_cons] at h
    cases hba : burdenOf merged mIds cIds a with
    | error e => rw [hba] at h; simp at h
    | ok b0 =>
      rw [hba] at h
      cases hrest : sharedCountsAux merged mIds cIds rest with
      | error e => rw [hrest] at h; simp at h
      | ok l0 =>
        rw [hrest] at h
        simp only [Except.ok.injEq] at h
        subst h
        rcases List.mem_cons.mp hb with rfl | hb0
        · exact ⟨a, List.mem_cons_self a rest, hba⟩
        · rcases ih l0 hrest b hb0 with ⟨pid, hpid, hbb⟩
          exact ⟨pid, List.mem_cons_of_mem _ hpid, hbb⟩

theorem sharedCountsAux_ids (merged : List PepRecord) (mIds cIds : List String) :
    ∀ (ids : List String) (l : List ProteinBurden),
      sharedCountsAux merged mIds cIds ids = .ok l →
      ∀ pid, (∃ b ∈ l, b.protein_id = pid) ↔ pid ∈ ids := by
  intro ids
  induction ids with
  | nil =>
    intro l h pid
    rw [sharedCountsAux_nil, Except.ok.injEq] at h
    subst h
    simp
  | cons a rest ih =>
    intro l h pid
    rw [sharedCountsAux_cons] at h
    cases hba : burdenOf merged mIds cIds a with
    | error e => rw [hba] at h; simp at h
    | ok b0 =>
      rw [hba] at h
      cases hrest : sharedCountsAux merged mIds cIds rest with
      | error e => rw [hrest] at h; simp at h
      | ok l0 =>
        rw [hrest] at h
        simp only [Except.ok.injEq] at h
        subst h
        have hid0 : b0.protein_id = a := (burdenOf_eq_ok merged mIds cIds a b0 hba).1
        rw [List.mem_cons]
        constructor
        · rintro ⟨b, hb, hbid⟩
          rcases List.mem_cons.mp hb with rfl | hb0
          · exact Or.inl (hbid.symm.trans hid0)
          · exact Or.inr ((ih l0 hrest pid).mp ⟨b, hb0, hbid⟩)
        · rintro (rfl | hpid)
          · exact ⟨b0, List.mem_cons_self b0 l0, hid0⟩
          · rcases (ih l0 hrest pid).mpr hpid with ⟨b, hb, hbid⟩
            exact ⟨b, List.mem_cons_of_mem _ hb, hbid⟩

theorem mem_multi_ids_iff (merged : List PepRecord) (pid : String) :
    pid ∈ multi_pep_common_prot_ids merged ↔
      2 ≤ countProt (duplicate_df merged) pid := by
  rw [multi_pep_common_prot_ids, List.mem_dedup, List.mem_map]
  constructor
  · rintro ⟨r, hr, rfl⟩
    rw [multi_pep_common_prots] at hr
    have h2 := List.mem_filter.mp hr
    simpa using h2.2
  · intro h2
    have hpos : 0 < countProt (duplicate_df merged) pid := by omega
    rcases (countProt_pos_iff _ _).mp hpos with ⟨r, hr, hpid⟩
    refine ⟨r, ?_, hpid⟩
    rw [multi_pep_common_prots]
    refine List.mem_filter.mpr ⟨hr, ?_⟩
    simp only [hpid, decide_eq_true_eq]
    exact h2

/-- C5: during burden analysis the species attribution errors out exactly
when the protein identifier is in neither organism's identifier list, and
such an identifier among the eligible proteins makes the whole shared-burden
computation fail with that error rather than silently assigning a species. -/
theorem burden_unknown_protein (mIds cIds : List String) (pid : String)
    (merged : List PepRecord) :
    (speciesOf mIds cIds pid = .error "Protein ID not found" ↔
      pid ∉ mIds ∧ pid ∉ cIds) ∧
    ((∃ q ∈ multi_pep_common_prot_ids merged, q ∉ mIds ∧ q ∉ cIds) →
      shared_counts merged mIds cIds = .error "Protein ID not found") := by
  constructor
  · rw [speciesOf_eq_error]
    simp
  · rintro ⟨q, hq, hm, hc⟩
    exact sharedCountsAux_error merged mIds cIds _ ⟨q, hq, hm, hc⟩

def mouseTotalC5 : List PepRecord :=
  [⟨"Z", "CCK", "mouse"⟩, ⟨"Z", "DDK", "mouse"⟩]

def candidaTotalC5 : List PepRecord :=
  [⟨"W", "CCK", "candida"⟩, ⟨"W", "DDK", "candida"⟩]

def mergedC5 : List PepRecord :=
  merged_df (unique_df mouseTotalC5) (unique_df candidaTotalC5)

theorem burden_unknown_protein_witness :
    (speciesOf ["X"] ["W"] "Z" = .error "Protein ID not found" ↔
      "Z" ∉ ["X"] ∧ "Z" ∉ ["W"]) ∧
    shared_counts mergedC5 ["X"] ["W"] = .error "Protein ID not found" :=
  ⟨(burden_unknown_protein ["X"] ["W"] "Z" mergedC5).1,
    (burden_unknown_protein ["X"] ["W"] "Z" mergedC5).2
      ⟨"Z", by decide, by decide, by decide⟩⟩

/-- C10: the species attribution tests mouse membership first, so a protein
identifier present in both organisms' identifier lists is attributed to
Mouse, with no ambiguity error. -/
theorem species_attribution_mouse_first (mIds cIds : List String) (pid : String)
    (hm : pid ∈ mIds) (_hc : pid ∈ cIds) :
    speciesOf mIds cIds pid = .ok "Mouse" := by
  unfold speciesOf
  rw [if_pos hm]

theorem species_attribution_mouse_first_witness :
    speciesOf ["A0A0"] ["A0A0"] "A0A0" = .ok "Mouse" :=
  species_attribution_mouse_first ["A0A0"] ["A0A0"] "A0A0" (by decide) (by decide)

/-- C3 (amended): every produced burden record's `total_peptides` denominator
is the protein's record count in the combined unique collection `merged_df`
(not the organism's full total collection), and `shared_proportion` is the
exact ratio of the record's own counts times 100. -/
theorem burden_denominator (merged : List PepRecord) (mIds cIds : List String)
    (l : List ProteinBurden) (h : shared_counts merged mIds cIds = .ok l)
    (b : ProteinBurden) (hb : b ∈ l) :
    b.total_peptides = countProt merged b.protein_id ∧
    b.shared_peptides = countProt (multi_pep_common_prots merged) b.protein_id ∧
    b.shared_proportion = (b.shared_peptides : ℚ) / (b.total_peptides : ℚ) * 100 := by
  rcases sharedCountsAux_mem merged mIds cIds _ l h b hb with ⟨pid, _, hba⟩
  rcases burdenOf_eq_ok merged mIds cIds pid b hba with ⟨h1, h2, h3, h4⟩
  refine ⟨by rw [h1, h3], by rw [h1, h2], ?_⟩
  rw [h4, h2, h3]

def mouseTotalC3 : List PepRecord :=
  [⟨"P1", "AAK", "mouse"⟩, ⟨"P1", "AAK", "mouse"⟩,
   ⟨"P1", "CCK", "mouse"⟩, ⟨"P1", "DDK", "mouse"⟩]

def candidaTotalC3 : List PepRecord :=
  [⟨"Q1", "CCK", "candida"⟩, ⟨"Q1", "DDK", "candida"⟩]

def mergedC3 : List PepRecord :=
  merged_df (unique_df mouseTotalC3) (unique_df candidaTotalC3)

/-- The countable fields of a burden record, for stating concrete outputs
without touching the rational field. -/
def burdenCounts (b : ProteinBurden) : String × String × Nat × Nat :=
  (b.protein_id, b.species, b.shared_peptides, b.total_peptides)

/-- Counterexample to C3 as stated: protein P1 has 4 records in its
organism's total collection, of which AAK is internally duplicated, so only
CCK and DDK survive into the unique subset; both collide with Candida.  The
code reports `total_peptides = 2` and proportion `2/2*100 = 100`, whereas
the claim's denominator (the organism's full total collection, 4 records)
would give `2/4*100 = 50`. -/
theorem burden_denominator_counterexample :
    (shared_counts mergedC3 ["P1"] ["Q1"]).map (fun l => l.map burdenCounts) =
      .ok [("P1", "Mouse", 2, 2), ("Q1", "Candida", 2, 2)] ∧
    countProt mouseTotalC3 "P1" = 4 ∧
    ¬ ((2 : ℚ) / (countProt mouseTotalC3 "P1" : ℚ) * 100 = (2 : ℚ) / 2 * 100) := by
  refine ⟨rfl, rfl, ?_⟩
  have h4 : countProt mouseTotalC3 "P1" = 4 := rfl
  rw [h4]
  norm_num

def burdenP1C3 : ProteinBurden :=
  ⟨"P1", "Mouse", 2, 2, ((2 : Nat) : ℚ) / ((2 : Nat) : ℚ) * 100⟩

def burdenQ1C3 : ProteinBurden :=
  ⟨"Q1", "Candida", 2, 2, ((2 : Nat) : ℚ) / ((2 : Nat) : ℚ) * 100⟩

theorem burden_denominator_witness :
    burdenP1C3.total_peptides = countProt mergedC3 burdenP1C3.protein_id ∧
    burdenP1C3.shared_peptides =
      countProt (multi_pep_common_prots mergedC3) burdenP1C3.protein_id ∧
    burdenP1C3.shared_proportion =
      (burdenP1C3.shared_peptides : ℚ) / (burdenP1C3.total_peptides : ℚ) * 100 :=
  burden_denominator mergedC3 ["P1"] ["Q1"] [burdenP1C3, burdenQ1C3] rfl
    burdenP1C3 (List.mem_cons_self burdenP1C3 [burdenQ1C3])

/-- C6 (amended): with a successful species attribution, a burden record is
produced for a protein identifier iff that identifier occurs more than once
among the overlap-peptide rows of `duplicate_df`; this counts row
occurrences, which coincide with distinct shared peptides only when the two
organisms' identifier sets are disjoint. -/
theorem burden_eligibility (merged : List PepRecord) (mIds cIds : List String)
    (l : List ProteinBurden) (h : shared_counts merged mIds cIds = .ok l)
    (pid : String) :
    (∃ b ∈ l, b.protein_id = pid) ↔ 2 ≤ countProt (duplicate_df merged) pid := by
  have h2 : sharedCountsAux merged mIds cIds (multi_pep_common_prot_ids merged) = .ok l := h
  rw [sharedCountsAux_ids merged mIds cIds _ l h2 pid]
  exact mem_multi_ids_iff merged pid

def mouseTotalC6 : List PepRecord := [⟨"P", "CCK", "mouse"⟩]

def candidaTotalC6 : List PepRecord := [⟨"P", "CCK", "candida"⟩]

def mergedC6 : List PepRecord :=
  merged_df (unique_df mouseTotalC6) (unique_df candidaTotalC6)

/-- Counterexample to C6 as stated: when the same protein identifier occurs
in both organisms' collections with one colliding peptide, that identifier
occurs twice among the overlap rows, so the code produces a burden record for
it although it contributes exactly one distinct shared peptide (CCK) —
contradicting the claim that such proteins get no burden record. -/
theorem burden_eligibility_counterexample :
    (shared_counts mergedC6 ["P"] ["P"]).map (fun l => l.map burdenCounts) =
      .ok [("P", "Mouse", 2, 2)] ∧
    (((duplicate_df mergedC6).filter (fun r => r.protein_id = "P")).map
        (fun r => r.peptide)).dedup = ["CCK"] :=
  ⟨rfl, rfl⟩

def burdenPC6 : ProteinBurden :=
  ⟨"P", "Mouse", 2, 2, ((2 : Nat) : ℚ) / ((2 : Nat) : ℚ) * 100⟩

theorem burden_eligibility_witness :
    (∃ b ∈ [burdenPC6], b.protein_id = "P") ↔
      2 ≤ countProt (duplicate_df mergedC6) "P" :=
  burden_eligibility mergedC6 ["P"] ["P"] [burdenPC6] rfl "P"

theorem screenConflicts_nil (shared : List String) :
    screenConflicts shared [] = .ok [] := rfl

theorem screenConflicts_cons (shared : List String) (r : ResultRow) (rs : List ResultRow) :
    screenConflicts shared (r :: rs) =
      match clean_peptide r.precursorId with
      | .error e => .error e
      | .ok p =>
        match screenConflicts shared rs with
        | .error e => .error e
        | .ok rest =>
          if p ∈ shared then .ok ({ row := r, clean_peptide := p } :: rest)
          else .ok rest := rfl

theorem buildSummary_nil (mt ct : List PepRecord) :
    buildSummary mt ct [] = .ok [] := rfl

theorem buildSummary_cons (mt ct : List PepRecord) (p : String)
    (g : List PepRecord) (rest : List (String × List PepRecord)) :
    buildSummary mt ct ((p, g) :: rest) =
      match summaryRow mt ct p g with
      | .error e => .error e
      | .ok row =>
        match buildSummary mt ct rest with
        | .error e => .error e
        | .ok rows => .ok (row :: rows) := rfl

theorem stripBracketed_of_not_mem (l : List Char) (h : '[' ∉ l) :
    stripBracketed l false = l := by
  induction l with
  | nil => rfl
  | cons c cs ih =>
    rw [List.mem_cons, not_or] at h
    have hc : ¬ c = '[' := fun e => h.1 e.symm
    simp only [stripBracketed]
    rw [if_neg hc, ih h.2]

/-- C7: the Normalizer applied to a digest-produced bare peptide sequence
wrapped in the raw annotated convention with zero modifications returns the
original sequence unchanged, and the raw identifier
`_C[Carbamidomethyl (C)]QGTFSPEDNSIK_.2` normalizes to exactly
`CQGTFSPEDNSIK`. -/
theorem normalizer_round_trip :
    (∀ s : String, '[' ∉ s.data → clean_peptide (rawWrap s) = .ok s) ∧
    clean_peptide "_C[Carbamidomethyl (C)]QGTFSPEDNSIK_.2" = .ok "CQGTFSPEDNSIK" := by
  constructor
  · intro s hs
    have hdata : (rawWrap s).data = '_' :: (s.data ++ ['_', '.', '2']) := by
      simp [rawWrap]
    have h0 : ('_' :: (s.data ++ ['_', '.', '2'])).tail = s.data ++ ['_', '.', '2'] := rfl
    have h1 : (s.data ++ ['_', '.', '2']).reverse = '2' :: '.' :: '_' :: s.data.reverse := by
      rw [List.reverse_append]
      rfl
    have h2 : List.dropWhile (fun x => x ≠ '_') ('2' :: '.' :: '_' :: s.data.reverse) =
        '_' :: s.data.reverse := by
      rw [List.dropWhile_cons, if_pos (by decide), List.dropWhile_cons, if_pos (by decide),
        List.dropWhile_cons, if_neg (by decide)]
    unfold clean_peptide
    rw [hdata]
    have hcond : ('_' :: (s.data ++ ['_', '.', '2'])).head? = some '_' ∧
        '_' ∈ ('_' :: (s.data ++ ['_', '.', '2'])).tail := by
      refine ⟨rfl, ?_⟩
      rw [h0]
      simp
    rw [if_pos hcond, h0, h1, h2, List.tail_cons, List.reverse_reverse,
      stripBracketed_of_not_mem s.data hs]
  · rfl

theorem normalizer_round_trip_witness :
    clean_peptide (rawWrap "AAK") = .ok "AAK" :=
  normalizer_round_trip.1 "AAK" (by decide)

/-- C4: when every row normalizes, the conflicts loop returns exactly the
input rows whose normalized peptide belongs to the shared-peptide list, each
annotated with that peptide, in input order with every matching occurrence
retained and every non-matching row excluded. -/
theorem screener_conflicts (shared : List String) (rows : List ResultRow)
    (h : ∀ r ∈ rows, ∃ p, clean_peptide r.precursorId = .ok p) :
    screenConflicts shared rows = .ok (rows.filterMap (fun r =>
      match clean_peptide r.precursorId with
      | .ok p => if p ∈ shared then some { row := r, clean_peptide := p } else none
      | .error _ => none)) := by
  induction rows with
  | nil => rfl
  | cons r rs ih =>
    rcases h r (List.mem_cons_self r rs) with ⟨p, hp⟩
    have hrest := ih (fun x hx => h x (List.mem_cons_of_mem r hx))
    rw [screenConflicts_cons, hp, hrest, List.filterMap_cons]
    by_cases hps : p ∈ shared
    · simp [hp, hps]
    · simp [hp, hps]

theorem screener_conflicts_witness :
    screenConflicts ["AAK"] [⟨"_AAK_.2", "a"⟩, ⟨"_BBK_.2", "b"⟩] =
      .ok [{ row := ⟨"_AAK_.2", "a"⟩, clean_peptide := "AAK" }] := by
  have hyp : ∀ r ∈ [(⟨"_AAK_.2", "a"⟩ : ResultRow), ⟨"_BBK_.2", "b"⟩],
      ∃ p, clean_peptide r.precursorId = .ok p := by
    intro r hr
    rcases List.mem_cons.mp hr with rfl | hr2
    · exact ⟨"AAK", rfl⟩
    · rcases List.mem_cons.mp hr2 with rfl | h3
      · exact ⟨"BBK", rfl⟩
      · simp at h3
  exact (screener_conflicts ["AAK"] [⟨"_AAK_.2", "a"⟩, ⟨"_BBK_.2", "b"⟩] hyp).trans rfl

/-- C9 (amended): a row whose identifier fails to normalize makes the whole
conflicts loop fail with that normalization error — the run aborts instead
of surfacing the error per-row, and the row is not silently classified as
not shared. -/
theorem screener_normalization_abort (shared : List String) (rows : List ResultRow)
    (h : ∃ r ∈ rows, ∃ e, clean_peptide r.precursorId = .error e) :
    ∃ e, screenConflicts shared rows = .error e := by
  induction rows with
  | nil => simp at h
  | cons r rs ih =>
    rcases h with ⟨x, hx, e, he⟩
    cases hcp : clean_peptide r.precursorId with
    | error e2 => exact ⟨e2, by rw [screenConflicts_cons, hcp]⟩
    | ok p =>
      have hx2 : x ∈ rs := by
        rcases List.mem_cons.mp hx with rfl | h2
        · rw [hcp] at he; simp at he
        · exact h2
      rcases ih ⟨x, hx2, e, he⟩ with ⟨e3, he3⟩
      exact ⟨e3, by rw [screenConflicts_cons, hcp, he3]⟩

theorem screener_normalization_abort_witness :
    ∃ e, screenConflicts ["CCK"] [⟨"BAD", "x"⟩] = .error e :=
  screener_normalization_abort ["CCK"] [⟨"BAD", "x"⟩]
    ⟨⟨"BAD", "x"⟩, List.mem_cons_self _ _, "NormalizationError", rfl⟩

/-- Counterexample to C9 as stated: a malformed identifier in the first row
aborts the whole screening loop with the normalization error — the second
row, whose peptide is in the shared set (as the second conjunct shows when
it is screened alone), is not retained; the error is not contained to the
failing row. -/
theorem screener_normalization_counterexample :
    screenConflicts ["AAK"] [⟨"PEPTIDE", "m1"⟩, ⟨"_AAK_.2", "m2"⟩] =
      .error "NormalizationError" ∧
    screenConflicts ["AAK"] [⟨"_AAK_.2", "m2"⟩] =
      .ok [{ row := ⟨"_AAK_.2", "m2"⟩, clean_peptide := "AAK" }] :=
  ⟨rfl, rfl⟩

/-- C8 (amended): a group whose peptide cannot be matched to a protein for
each organism makes the whole summary construction fail with the lookup
error — the run aborts instead of reporting that row and continuing. -/
theorem summary_lookup_abort (mt ct : List PepRecord)
    (groups : List (String × List PepRecord))
    (h : ∃ g ∈ groups, ∃ e, summaryRow mt ct g.1 g.2 = .error e) :
    ∃ e, buildSummary mt ct groups = .error e := by
  induction groups with
  | nil => simp at h
  | cons g0 rest ih =>
    obtain ⟨p, g⟩ := g0
    rcases h with ⟨x, hx, e, he⟩
    cases hsr : summaryRow mt ct p g with
    | error e2 => exact ⟨e2, by rw [buildSummary_cons, hsr]⟩
    | ok row =>
      have hx2 : x ∈ rest := by
        rcases List.mem_cons.mp hx with rfl | h2
        · rw [hsr] at he; simp at he
        · exact h2
      rcases ih ⟨x, hx2, e, he⟩ with ⟨e3, he3⟩
      exact ⟨e3, by rw [buildSummary_cons, hsr, he3]⟩

def mouseTotalC8 : List PepRecord :=
  [⟨"P1", "CCK", "mouse"⟩, ⟨"P1", "DDK", "mouse"⟩]

def candidaTotalC8 : List PepRecord := [⟨"Q1", "DDK", "candida"⟩]

def badGroupC8 : String × List PepRecord := ("CCK", [⟨"P1", "CCK", "mouse"⟩])

def goodGroupC8 : String × List PepRecord :=
  ("DDK", [⟨"P1", "DDK", "mouse"⟩, ⟨"Q1", "DDK", "candida"⟩])

theorem summary_lookup_abort_witness :
    ∃ e, buildSummary mouseTotalC8 candidaTotalC8 [badGroupC8] = .error e :=
  summary_lookup_abort mouseTotalC8 candidaTotalC8 [badGroupC8]
    ⟨badGroupC8, List.mem_cons_self _ _, "IndexError", rfl⟩

/-- Counterexample to C8 as stated: the first group has no candida record,
so its `.values[0]` lookup fails; the failure aborts the whole loop and the
second, fully matched group (which alone would yield a summary row, as the
second conjunct shows) produces nothing — processing does not continue past
the failing peptide. -/
theorem summary_lookup_counterexample :
    buildSummary mouseTotalC8 candidaTotalC8 [badGroupC8, goodGroupC8] =
      .error "IndexError" ∧
    buildSummary mouseTotalC8 candidaTotalC8 [goodGroupC8] =
      .ok [{ peptide := "DDK", mouse_prot := "P1", mouse_total_peptides := 2,
             candida_prot := "Q1", candida_total_peptides := 1 }] :=
  ⟨rfl, rfl⟩

end PepOverlap
